import Mathlib

/-!
Verification of the `nexus` keystroke-segmentation engine
(`src/nexus/Freqlog/Freqlog.py`, method `Freqlog._process_queue` and its
helpers `_log_and_reset_word`, `_log_word`, `_on_release`).

Shallow embedding conventions:
- Python `datetime` timestamps and `timedelta` durations are modelled as `ℚ`
  (milliseconds); `timedelta(milliseconds=thr)` for the integer threshold
  `chord_char_threshold` is the cast `(thr : ℚ)`.
- Python `str` is `List Char`; `word[:-1]` is `List.dropLast`,
  `word += key.char` is `word ++ [c]`.
- Python sets of keys are `List Key` with `List.insert` (add) and
  `List.erase` (discard); the truthiness test `if not active_modifier_keys`
  is emptiness.
- Python truthiness of an optional `timedelta` (`None` and the zero duration
  are falsy) is `pyTruthyDelta`.
- The persistence backend is modelled as an append-only list of `LogEntry`;
  `_log_chord` exists but is never called from the flush path (the chord
  branch of `_log_and_reset_word` is the literal `pass` stub in the source).
-/

namespace Nexus

/-- Key identifiers: `kbd.KeyCode` carrying a character, the distinguished
`kbd.Key.backspace`, any other special `kbd.Key`, or a mouse button. -/
inductive Key where
  | charKey (c : Char)
  | backspace
  | special (name : String)
  | mouseButton (id : Nat)
deriving DecidableEq, Repr

/-- `ActionType.PRESS` / `ActionType.RELEASE` from the source. -/
inductive ActionType where
  | press
  | release
deriving DecidableEq, Repr

/-- One queue element `(action, key, time_pressed)`. -/
structure RawEvent where
  action : ActionType
  key : Key
  time_pressed : ℚ
deriving DecidableEq, Repr

/-- Engine configuration (`self.*` fields read by `_process_queue`). -/
structure Config where
  new_word_threshold : ℚ
  chord_char_threshold : Int
  allowed_keys_in_chord : List Char
  modifier_keys : List Key
deriving DecidableEq, Repr

/-- The loop-local mutable state of `_process_queue`
(lines 38-43 of `Freqlog.py`), in source order. -/
structure EngineState where
  word : List Char
  word_start_time : Option ℚ
  word_end_time : Option ℚ
  chars_since_last_bs : Nat
  avg_char_time_after_last_bs : Option ℚ
  active_modifier_keys : List Key
deriving DecidableEq, Repr

/-- Initial state: all fields empty / `None` / `0`. -/
def initEngine : EngineState :=
  { word := []
    word_start_time := none
    word_end_time := none
    chars_since_last_bs := 0
    avg_char_time_after_last_bs := none
    active_modifier_keys := [] }

/-- Entries persisted through the backend (`_log_word` / `_log_chord`). -/
inductive LogEntry where
  | word (text : List Char) (start_t : Option ℚ) (end_t : Option ℚ)
  | chord (text : List Char) (start_t : Option ℚ) (end_t : Option ℚ)
deriving DecidableEq, Repr

/-- Python truthiness of `avg_char_time_after_last_bs`: `None` and the zero
`timedelta` are falsy. -/
def pyTruthyDelta : Option ℚ → Bool
  | none => false
  | some d => decide (d ≠ 0)

/-- The `char` of a `kbd.KeyCode`, `none` for non-`KeyCode` keys; mirrors
`isinstance(key, kbd.KeyCode) and key.char`. -/
def keyChar : Key → Option Char
  | Key.charKey c => some c
  | _ => none

/-- `avg_char_time_after_last_bs and avg_char_time_after_last_bs >
timedelta(milliseconds=self.chord_char_threshold)` (line 63-64). -/
def flushCond (cfg : Config) (avg : Option ℚ) : Bool :=
  pyTruthyDelta avg && decide ((cfg.chord_char_threshold : ℚ) < avg.getD 0)

/-- `_log_and_reset_word(min_length=1)` (lines 45-74): on an empty word do
nothing; otherwise, if the word is longer than `min_length`, append a word
entry when `flushCond` holds (the chord branch is the `pass` stub and logs
nothing); in all non-empty cases reset the candidate fields. -/
def logAndResetWord (cfg : Config) (min_length : Nat) (s : EngineState)
    (log : List LogEntry) : EngineState × List LogEntry :=
  if s.word = [] then (s, log)
  else
    let log2 :=
      if min_length < s.word.length then
        if flushCond cfg s.avg_char_time_after_last_bs then
          log ++ [LogEntry.word s.word s.word_start_time s.word_end_time]
        else
          log
      else log
    ({ s with
        word := []
        word_start_time := none
        word_end_time := none
        chars_since_last_bs := 0
        avg_char_time_after_last_bs := none }, log2)

/-- Modifier-set update (lines 87-91): on `PRESS` of a configured modifier
key, add it; otherwise on `RELEASE` (of any key), discard it. -/
def updateModifiers (cfg : Config) (active : List Key) (a : ActionType)
    (k : Key) : List Key :=
  if a = ActionType.press ∧ k ∈ cfg.modifier_keys then active.insert k
  else if a = ActionType.release then active.erase k
  else active

/-- Character-append branch (lines 110-120): extend the word, bump
`chars_since_last_bs`, set `word_start_time` only when it is `None`,
otherwise update the rolling average, then set `word_end_time`. -/
def appendChar (s : EngineState) (c : Char) (t : ℚ) : EngineState :=
  let n : Nat := s.chars_since_last_bs + 1
  let startNew :=
    if s.word_start_time.isNone then some t else s.word_start_time
  let avgNew :=
    if s.word_start_time.isNone then s.avg_char_time_after_last_bs
    else if decide (1 < n) && pyTruthyDelta s.avg_char_time_after_last_bs then
      some ((s.avg_char_time_after_last_bs.getD 0 * ((n - 1 : Nat) : ℚ) +
              (t - s.word_end_time.getD 0)) / (n : ℚ))
    else if 1 < n then
      some (t - s.word_end_time.getD 0)
    else s.avg_char_time_after_last_bs
  { s with
      word := s.word ++ [c]
      word_start_time := startNew
      word_end_time := some t
      chars_since_last_bs := n
      avg_char_time_after_last_bs := avgNew }

/-- `if word: _log_and_reset_word()` — flush guard used by the non-member
branch (lines 103-104) and the timeout branch (lines 124-125). -/
def flushIfNonempty (cfg : Config) (s : EngineState) (log : List LogEntry) :
    EngineState × List LogEntry :=
  if s.word ≠ [] then logAndResetWord cfg 1 s log else (s, log)

/-- One received event through the body of the loop (lines 87-121):
modifier tracking, then backspace handling, then the member/non-member
dispatch on the key. -/
def processEvent (cfg : Config) (s : EngineState) (log : List LogEntry)
    (e : RawEvent) : EngineState × List LogEntry :=
  let s1 := { s with
      active_modifier_keys :=
        updateModifiers cfg s.active_modifier_keys e.action e.key }
  if e.key = Key.backspace ∧ s1.word ≠ [] then
    ({ s1 with
        word := s1.word.dropLast
        chars_since_last_bs := 0
        avg_char_time_after_last_bs := none }, log)
  else
    match e.key with
    | Key.charKey c =>
        if c ∈ cfg.allowed_keys_in_chord then
          if s1.active_modifier_keys = [] then
            (appendChar s1 c e.time_pressed, log)
          else (s1, log)
        else flushIfNonempty cfg s1 log
    | _ => flushIfNonempty cfg s1 log

/-- Fold a list of received events through `processEvent`. -/
def processEvents (cfg : Config) :
    EngineState → List LogEntry → List RawEvent → EngineState × List LogEntry
  | s, log, [] => (s, log)
  | s, log, e :: es =>
      processEvents cfg (processEvent cfg s log e).1 (processEvent cfg s log e).2 es

/-- Whole-system state for the timeout tick: engine state, backend log,
how many times `backend.close()` has run, and whether the loop has exited. -/
structure SysState where
  engine : EngineState
  log : List LogEntry
  closedCount : Nat
  stopped : Bool
deriving DecidableEq, Repr

/-- The `EmptyException` branch (lines 122-130): flush a non-empty candidate,
then, when `is_logging` is false, close the backend and leave the loop. -/
def timeoutStep (cfg : Config) (is_logging : Bool) (st : SysState) : SysState :=
  let p := flushIfNonempty cfg st.engine st.log
  if is_logging then { st with engine := p.1, log := p.2 }
  else { engine := p.1, log := p.2, closedCount := st.closedCount + 1, stopped := true }

/-- `_on_release` (lines 18-21): the producer enqueues a `RELEASE` event only
for keys in the configured modifier set. -/
def onRelease (modifier_keys : List Key) (k : Key) (t : ℚ) : List RawEvent :=
  if k ∈ modifier_keys then [⟨ActionType.release, k, t⟩] else []

/-- Press events for a list of (character, timestamp) pairs. -/
def pressEvents : List (Char × ℚ) → List RawEvent
  | [] => []
  | (c, t) :: l => ⟨ActionType.press, Key.charKey c, t⟩ :: pressEvents l

/-- Timestamp of the last pair, defaulting to `d` on the empty list. -/
def lastTimeD : Option ℚ → List (Char × ℚ) → Option ℚ
  | d, [] => d
  | _, (_, t) :: l => lastTimeD (some t) l

/-- Shared concrete configuration for witnesses and counterexamples:
`h`, `x`, `i` allowed in chords, shift as the single modifier,
100 ms chord threshold. -/
def cfgT : Config :=
  { new_word_threshold := 5
    chord_char_threshold := 100
    allowed_keys_in_chord := ['h', 'x', 'i']
    modifier_keys := [Key.special "shift"] }

end Nexus

namespace Nexus

/-! ## Helper lemmas about the flush and the per-event step -/

/-- Flushing a non-empty candidate resets every candidate field. -/
theorem logAndResetWord_fst (cfg : Config) (m : Nat) (s : EngineState)
    (log : List LogEntry) (h : s.word ≠ []) :
    (logAndResetWord cfg m s log).1 =
      { s with
          word := []
          word_start_time := none
          word_end_time := none
          chars_since_last_bs := 0
          avg_char_time_after_last_bs := none } := by
  simp [logAndResetWord, h]

/-- The flush never touches the active-modifier set. -/
@[simp] theorem logAndResetWord_active (cfg : Config) (m : Nat) (s : EngineState)
    (log : List LogEntry) :
    (logAndResetWord cfg m s log).1.active_modifier_keys = s.active_modifier_keys := by
  unfold logAndResetWord
  split <;> rfl

/-- The flush either leaves the log unchanged or appends exactly one word
entry carrying the candidate's text, start time and end time. -/
theorem logAndResetWord_snd_cases (cfg : Config) (m : Nat) (s : EngineState)
    (log : List LogEntry) :
    (logAndResetWord cfg m s log).2 = log ∨
    (logAndResetWord cfg m s log).2 =
      log ++ [LogEntry.word s.word s.word_start_time s.word_end_time] := by
  unfold logAndResetWord
  split
  · exact Or.inl rfl
  · simp only
    split
    · split
      · exact Or.inr rfl
      · exact Or.inl rfl
    · exact Or.inl rfl

/-- A candidate no longer than `min_length` is never persisted. -/
theorem logAndResetWord_snd_short (cfg : Config) (m : Nat) (s : EngineState)
    (log : List LogEntry) (h : s.word.length ≤ m) :
    (logAndResetWord cfg m s log).2 = log := by
  unfold logAndResetWord
  split
  · rfl
  · simp only
    rw [if_neg (by omega)]

/-- `List.insert` never yields the empty list. -/
theorem insert_ne_nil (a : Key) (l : List Key) : l.insert a ≠ [] := by
  by_cases h : a ∈ l
  · simpa [List.insert, h] using List.ne_nil_of_mem h
  · simp [List.insert, h]

/-- A press of an allowed character key that is not a configured modifier,
with no modifier active, is exactly the append branch. -/
theorem processEvent_press_allowed (cfg : Config) (s : EngineState)
    (log : List LogEntry) (c : Char) (t : ℚ)
    (hact : s.active_modifier_keys = [])
    (hc : c ∈ cfg.allowed_keys_in_chord)
    (hm : Key.charKey c ∉ cfg.modifier_keys) :
    processEvent cfg s log ⟨ActionType.press, Key.charKey c, t⟩ =
      (appendChar s c t, log) := by
  obtain ⟨w, st, en, ch, av, ac⟩ := s
  change ac = [] at hact
  subst hact
  simp [processEvent, updateModifiers, hm, hc]

/-- `appendChar` never touches the active-modifier set. -/
@[simp] theorem appendChar_active (s : EngineState) (c : Char) (t : ℚ) :
    (appendChar s c t).active_modifier_keys = s.active_modifier_keys := rfl

/-- After one event, the active-modifier set is exactly the modifier-update
of the incoming one: no later branch of the loop body touches it. -/
theorem processEvent_active (cfg : Config) (s : EngineState)
    (log : List LogEntry) (e : RawEvent) :
    (processEvent cfg s log e).1.active_modifier_keys =
      updateModifiers cfg s.active_modifier_keys e.action e.key := by
  simp only [processEvent, flushIfNonempty]
  repeat' split
  all_goals simp [logAndResetWord_active]

end Nexus

namespace Nexus

/-! ## C1: straight-line typing accumulates exactly the pressed characters -/

/-- Appending a character when a start time is already set preserves the
start time, extends the word, and stamps the end time. -/
theorem appendChar_of_isSome (s : EngineState) (c : Char) (t t0 : ℚ)
    (h : s.word_start_time = some t0) :
    (appendChar s c t).word = s.word ++ [c] ∧
    (appendChar s c t).word_start_time = some t0 ∧
    (appendChar s c t).word_end_time = some t ∧
    (appendChar s c t).active_modifier_keys = s.active_modifier_keys := by
  simp [appendChar, h]

/-- Folding a list of allowed, non-modifier character presses over a state
with no active modifiers and a known start time: the characters are appended
in order, the start time is untouched, the end time tracks the last press,
the modifier set stays empty, and nothing is logged. -/
theorem processEvents_presses (cfg : Config) (l : List (Char × ℚ)) :
    ∀ (s : EngineState) (log : List LogEntry) (t0 : ℚ),
      s.active_modifier_keys = [] →
      s.word_start_time = some t0 →
      (∀ p ∈ l, p.1 ∈ cfg.allowed_keys_in_chord ∧
        Key.charKey p.1 ∉ cfg.modifier_keys) →
      (processEvents cfg s log (pressEvents l)).1.word = s.word ++ l.map Prod.fst ∧
      (processEvents cfg s log (pressEvents l)).1.word_start_time = some t0 ∧
      (processEvents cfg s log (pressEvents l)).1.word_end_time =
        lastTimeD s.word_end_time l ∧
      (processEvents cfg s log (pressEvents l)).1.active_modifier_keys = [] ∧
      (processEvents cfg s log (pressEvents l)).2 = log := by
  induction l with
  | nil =>
      intro s log t0 hact hstart hall
      simp [processEvents, pressEvents, lastTimeD, hact, hstart]
  | cons p l ih =>
      obtain ⟨c, t⟩ := p
      intro s log t0 hact hstart hall
      have hc := (hall (c, t) (by simp)).1
      have hm := (hall (c, t) (by simp)).2
      have hstep := processEvent_press_allowed cfg s log c t hact hc hm
      have happ := appendChar_of_isSome s c t t0 hstart
      have ihres := ih (appendChar s c t) log t0 (by rw [happ.2.2.2, hact])
        happ.2.1 (fun q hq => hall q (by simp [hq]))
      rw [pressEvents, processEvents, hstep]
      refine ⟨?_, ihres.2.1, ?_, ihres.2.2.2.1, ihres.2.2.2.2⟩
      · rw [ihres.1, happ.1]
        simp
      · rw [ihres.2.2.1, happ.2.2.1, lastTimeD]

end Nexus

namespace Nexus

/-- C1: For every sequence of presses of allowed character keys with no
backspace, no active modifier keys, and a final receive timeout, the
candidate holds the pressed characters in order with `start_time` the first
press time and `end_time` the last press time, and the word logged at the
timeout flush (when one is logged) is exactly that text with those times. -/
theorem freqlog_C1 (cfg : Config) (c : Char) (t : ℚ) (rest : List (Char × ℚ))
    (hall : ∀ p ∈ (c, t) :: rest, p.1 ∈ cfg.allowed_keys_in_chord ∧
      Key.charKey p.1 ∉ cfg.modifier_keys) :
    (processEvents cfg initEngine [] (pressEvents ((c, t) :: rest))).1.word =
      ((c, t) :: rest).map Prod.fst ∧
    (processEvents cfg initEngine [] (pressEvents ((c, t) :: rest))).1.word_start_time =
      some t ∧
    (processEvents cfg initEngine [] (pressEvents ((c, t) :: rest))).1.word_end_time =
      lastTimeD (some t) rest ∧
    (processEvents cfg initEngine [] (pressEvents ((c, t) :: rest))).2 = [] ∧
    ((timeoutStep cfg true
        { engine := (processEvents cfg initEngine [] (pressEvents ((c, t) :: rest))).1
          log := (processEvents cfg initEngine [] (pressEvents ((c, t) :: rest))).2
          closedCount := 0
          stopped := false }).log = [] ∨
     (timeoutStep cfg true
        { engine := (processEvents cfg initEngine [] (pressEvents ((c, t) :: rest))).1
          log := (processEvents cfg initEngine [] (pressEvents ((c, t) :: rest))).2
          closedCount := 0
          stopped := false }).log =
       [LogEntry.word (((c, t) :: rest).map Prod.fst) (some t) (lastTimeD (some t) rest)]) := by
  have hc := (hall (c, t) (by simp)).1
  have hm := (hall (c, t) (by simp)).2
  have hstep : processEvent cfg initEngine [] ⟨ActionType.press, Key.charKey c, t⟩ =
      (appendChar initEngine c t, []) :=
    processEvent_press_allowed cfg initEngine [] c t rfl hc hm
  have happ : appendChar initEngine c t =
      ⟨[c], some t, some t, 1, none, []⟩ := rfl
  have hrec := processEvents_presses cfg rest (appendChar initEngine c t) [] t
    (by rw [happ]) (by rw [happ]) (fun q hq => hall q (by simp [hq]))
  rw [pressEvents, processEvents, hstep]
  obtain ⟨h1, h2, h3, h4, h5⟩ := hrec
  have hword : (processEvents cfg (appendChar initEngine c t) []
      (pressEvents rest)).1.word = ((c, t) :: rest).map Prod.fst := by
    rw [h1, happ]
    simp
  have hend : (processEvents cfg (appendChar initEngine c t) []
      (pressEvents rest)).1.word_end_time = lastTimeD (some t) rest := by
    rw [h3, happ]
  refine ⟨hword, h2, hend, h5, ?_⟩
  have hne : (processEvents cfg (appendChar initEngine c t) []
      (pressEvents rest)).1.word ≠ [] := by
    rw [hword]
    simp
  have hlog : (timeoutStep cfg true
      { engine := (processEvents cfg (appendChar initEngine c t) []
          (pressEvents rest)).1
        log := (processEvents cfg (appendChar initEngine c t) []
          (pressEvents rest)).2
        closedCount := 0
        stopped := false }).log =
      (logAndResetWord cfg 1
        (processEvents cfg (appendChar initEngine c t) [] (pressEvents rest)).1
        (processEvents cfg (appendChar initEngine c t) [] (pressEvents rest)).2).2 := by
    simp [timeoutStep, flushIfNonempty, hne]
  rcases logAndResetWord_snd_cases cfg 1
      (processEvents cfg (appendChar initEngine c t) [] (pressEvents rest)).1
      (processEvents cfg (appendChar initEngine c t) [] (pressEvents rest)).2 with h | h
  · left
    rw [hlog, h, h5]
  · right
    rw [hlog, h, h5, hword, h2, hend]
    simp

/-- Witness for C1 at the concrete input `h@0, i@200` under `cfgT`. -/
theorem freqlog_C1_witness :
    (processEvents cfgT initEngine []
        (pressEvents [('h', (0 : ℚ)), ('i', 200)])).1.word =
      [('h', (0 : ℚ)), ('i', 200)].map Prod.fst ∧
    (processEvents cfgT initEngine []
        (pressEvents [('h', (0 : ℚ)), ('i', 200)])).1.word_start_time = some 0 ∧
    (processEvents cfgT initEngine []
        (pressEvents [('h', (0 : ℚ)), ('i', 200)])).1.word_end_time =
      lastTimeD (some 0) [('i', 200)] ∧
    (processEvents cfgT initEngine []
        (pressEvents [('h', (0 : ℚ)), ('i', 200)])).2 = [] ∧
    ((timeoutStep cfgT true
        { engine := (processEvents cfgT initEngine []
            (pressEvents [('h', (0 : ℚ)), ('i', 200)])).1
          log := (processEvents cfgT initEngine []
            (pressEvents [('h', (0 : ℚ)), ('i', 200)])).2
          closedCount := 0
          stopped := false }).log = [] ∨
     (timeoutStep cfgT true
        { engine := (processEvents cfgT initEngine []
            (pressEvents [('h', (0 : ℚ)), ('i', 200)])).1
          log := (processEvents cfgT initEngine []
            (pressEvents [('h', (0 : ℚ)), ('i', 200)])).2
          closedCount := 0
          stopped := false }).log =
       [LogEntry.word ([('h', (0 : ℚ)), ('i', 200)].map Prod.fst) (some 0)
          (lastTimeD (some 0) [('i', 200)])]) :=
  freqlog_C1 cfgT 'h' 0 [('i', 200)] (by decide)

end Nexus

namespace Nexus

/-- C2 counterexample: pressing `h`, `x`, `backspace`, `i`, then timing out
under `cfgT` leaves the backend log empty — the word `"hi"` is **not**
logged, because the backspace reset `avg_char_time_after_last_bs` to `None`,
so the flush takes the chord branch, which is the `pass` stub. The candidate
at the flush is indeed `"hi"`. -/
theorem freqlog_C2_counterexample :
    (processEvents cfgT initEngine []
        [⟨ActionType.press, Key.charKey 'h', 0⟩,
         ⟨ActionType.press, Key.charKey 'x', 1⟩,
         ⟨ActionType.press, Key.backspace, 2⟩,
         ⟨ActionType.press, Key.charKey 'i', 3⟩]).1.word = ['h', 'i'] ∧
    (timeoutStep cfgT true
        { engine := (processEvents cfgT initEngine []
            [⟨ActionType.press, Key.charKey 'h', 0⟩,
             ⟨ActionType.press, Key.charKey 'x', 1⟩,
             ⟨ActionType.press, Key.backspace, 2⟩,
             ⟨ActionType.press, Key.charKey 'i', 3⟩]).1
          log := []
          closedCount := 0
          stopped := false }).log = [] := by
  constructor <;>
    simp [processEvents, processEvent, updateModifiers, appendChar,
      flushIfNonempty, logAndResetWord, pyTruthyDelta, flushCond, cfgT,
      initEngine, timeoutStep]

/-- C2 amended: processing `h`, `x`, `backspace`, `i` (allowed characters,
no modifiers) leaves a candidate `"hi"` whose `start_time` is the timestamp
of the `h` press (unchanged by the erasure), with `chars_since_last_bs` and
`avg_char_time_after_last_bs` reset at the backspace; at the receive timeout
the candidate is flushed (state reset) but nothing is persisted: with the
average `None` after the erasure the flush classifies it into the chord
branch, which is a no-op stub. -/
theorem freqlog_C2_amended (t0 t1 t2 t3 : ℚ) :
    (processEvents cfgT initEngine []
        [⟨ActionType.press, Key.charKey 'h', t0⟩,
         ⟨ActionType.press, Key.charKey 'x', t1⟩,
         ⟨ActionType.press, Key.backspace, t2⟩]).1.chars_since_last_bs = 0 ∧
    (processEvents cfgT initEngine []
        [⟨ActionType.press, Key.charKey 'h', t0⟩,
         ⟨ActionType.press, Key.charKey 'x', t1⟩,
         ⟨ActionType.press, Key.backspace, t2⟩]).1.avg_char_time_after_last_bs =
      none ∧
    (processEvents cfgT initEngine []
        [⟨ActionType.press, Key.charKey 'h', t0⟩,
         ⟨ActionType.press, Key.charKey 'x', t1⟩,
         ⟨ActionType.press, Key.backspace, t2⟩,
         ⟨ActionType.press, Key.charKey 'i', t3⟩]).1.word = ['h', 'i'] ∧
    (processEvents cfgT initEngine []
        [⟨ActionType.press, Key.charKey 'h', t0⟩,
         ⟨ActionType.press, Key.charKey 'x', t1⟩,
         ⟨ActionType.press, Key.backspace, t2⟩,
         ⟨ActionType.press, Key.charKey 'i', t3⟩]).1.word_start_time = some t0 ∧
    (processEvents cfgT initEngine []
        [⟨ActionType.press, Key.charKey 'h', t0⟩,
         ⟨ActionType.press, Key.charKey 'x', t1⟩,
         ⟨ActionType.press, Key.backspace, t2⟩,
         ⟨ActionType.press, Key.charKey 'i', t3⟩]).1.word_end_time = some t3 ∧
    (timeoutStep cfgT true
        { engine := (processEvents cfgT initEngine []
            [⟨ActionType.press, Key.charKey 'h', t0⟩,
             ⟨ActionType.press, Key.charKey 'x', t1⟩,
             ⟨ActionType.press, Key.backspace, t2⟩,
             ⟨ActionType.press, Key.charKey 'i', t3⟩]).1
          log := []
          closedCount := 0
          stopped := false }).log = [] ∧
    (timeoutStep cfgT true
        { engine := (processEvents cfgT initEngine []
            [⟨ActionType.press, Key.charKey 'h', t0⟩,
             ⟨ActionType.press, Key.charKey 'x', t1⟩,
             ⟨ActionType.press, Key.backspace, t2⟩,
             ⟨ActionType.press, Key.charKey 'i', t3⟩]).1
          log := []
          closedCount := 0
          stopped := false }).engine.word = [] := by
  refine ⟨?_, ?_, ?_, ?_, ?_, ?_, ?_⟩ <;>
    simp [processEvents, processEvent, updateModifiers, appendChar,
      flushIfNonempty, logAndResetWord, pyTruthyDelta, flushCond, cfgT,
      initEngine, timeoutStep]

end Nexus

namespace Nexus

/-- C3 counterexample: a length-2 candidate whose average (1 ms) does not
exceed the 100 ms threshold is not persisted at all at the flush — the log
stays empty, so it is **not** "persisted via the chord-logging operation"
(the chord branch of `_log_and_reset_word` is a `pass` stub). -/
theorem freqlog_C3_counterexample :
    (logAndResetWord cfgT 1
      { word := ['h', 'i']
        word_start_time := some 0
        word_end_time := some 1
        chars_since_last_bs := 2
        avg_char_time_after_last_bs := some 1
        active_modifier_keys := [] } []).2 = [] := by
  simp [logAndResetWord, flushCond, pyTruthyDelta, cfgT]

/-- C3 amended: at a flush of a candidate of length at least 2, with a
nonnegative `chord_char_threshold`: if the average is present and strictly
exceeds the threshold, the candidate is persisted via the word-logging
operation; otherwise (average absent, zero, or not above the threshold)
nothing is persisted — the chord branch is a disabled stub. -/
theorem freqlog_C3_amended (cfg : Config) (s : EngineState)
    (log : List LogEntry) (hthr : 0 ≤ cfg.chord_char_threshold)
    (hlen : 1 < s.word.length) :
    (∀ d : ℚ, s.avg_char_time_after_last_bs = some d →
      (cfg.chord_char_threshold : ℚ) < d →
      (logAndResetWord cfg 1 s log).2 =
        log ++ [LogEntry.word s.word s.word_start_time s.word_end_time]) ∧
    ((s.avg_char_time_after_last_bs = none ∨
      ∃ d : ℚ, s.avg_char_time_after_last_bs = some d ∧
        d ≤ (cfg.chord_char_threshold : ℚ)) →
      (logAndResetWord cfg 1 s log).2 = log) := by
  have hne : s.word ≠ [] := by
    intro h
    rw [h] at hlen
    simp at hlen
  constructor
  · intro d hd hlt
    have hq : (0 : ℚ) ≤ (cfg.chord_char_threshold : ℚ) := by exact_mod_cast hthr
    have hd0 : d ≠ 0 := by
      intro h0
      rw [h0] at hlt
      linarith
    simp [logAndResetWord, hne, hlen, flushCond, pyTruthyDelta, hd, hd0, hlt]
  · rintro (hnone | ⟨d, hd, hle⟩)
    · simp [logAndResetWord, hne, hlen, flushCond, pyTruthyDelta, hnone]
    · simp [logAndResetWord, hne, hlen, flushCond, pyTruthyDelta, hd, not_lt.2 hle]

/-- Witness for C3 at a concrete slow candidate (average 200 ms > 100 ms):
the flush appends exactly one word entry. -/
theorem freqlog_C3_witness :
    (logAndResetWord cfgT 1
      { word := ['h', 'i']
        word_start_time := some 0
        word_end_time := some 200
        chars_since_last_bs := 2
        avg_char_time_after_last_bs := some 200
        active_modifier_keys := [] } []).2 =
      [LogEntry.word ['h', 'i'] (some 0) (some 200)] :=
  (freqlog_C3_amended cfgT
    { word := ['h', 'i']
      word_start_time := some 0
      word_end_time := some 200
      chars_since_last_bs := 2
      avg_char_time_after_last_bs := some 200
      active_modifier_keys := [] } [] (by decide) (by decide)).1 200 rfl
    (by norm_num [cfgT])

end Nexus

namespace Nexus

/-- C4 counterexample: press `h` at 0, backspace at 1 — the word is fully
erased, yet `word_start_time` and `word_end_time` are **not** cleared (they
stay `some 0`), so the candidate is not "reset to its empty state" by full
erasure; and after a further `i` press at 2 the start time is still the old
`some 0`, not the new press's timestamp `some 2`. -/
theorem freqlog_C4_counterexample :
    (processEvents cfgT initEngine []
        [⟨ActionType.press, Key.charKey 'h', 0⟩,
         ⟨ActionType.press, Key.backspace, 1⟩]).1.word = [] ∧
    (processEvents cfgT initEngine []
        [⟨ActionType.press, Key.charKey 'h', 0⟩,
         ⟨ActionType.press, Key.backspace, 1⟩]).1.word_start_time = some 0 ∧
    (processEvents cfgT initEngine []
        [⟨ActionType.press, Key.charKey 'h', 0⟩,
         ⟨ActionType.press, Key.backspace, 1⟩]).1.word_end_time = some 0 ∧
    (processEvents cfgT initEngine []
        [⟨ActionType.press, Key.charKey 'h', 0⟩,
         ⟨ActionType.press, Key.backspace, 1⟩,
         ⟨ActionType.press, Key.charKey 'i', 2⟩]).1.word_start_time = some 0 ∧
    ¬ (processEvents cfgT initEngine []
        [⟨ActionType.press, Key.charKey 'h', 0⟩,
         ⟨ActionType.press, Key.backspace, 1⟩,
         ⟨ActionType.press, Key.charKey 'i', 2⟩]).1.word_start_time = some 2 := by
  refine ⟨?_, ?_, ?_, ?_, ?_⟩ <;>
    simp [processEvents, processEvent, updateModifiers, appendChar,
      flushIfNonempty, logAndResetWord, pyTruthyDelta, flushCond, cfgT,
      initEngine]

/-- C4 amended: `word_start_time` is assigned only when it is `None`, which
happens on the first accepted character after a flush (or engine start);
backspace on a non-empty word erases the last character and zeroes
`chars_since_last_bs` and the average, but retains `word_start_time` and
`word_end_time` even when the erasure empties the text; a full reset of the
candidate (no text, no times, zeroed counters) happens exactly at a flush of
a non-empty candidate. -/
theorem freqlog_C4_amended (cfg : Config) (s : EngineState)
    (log : List LogEntry) (a : ActionType) (t : ℚ) (c : Char)
    (hw : s.word ≠ []) :
    ((processEvent cfg s log ⟨a, Key.backspace, t⟩).1.word = s.word.dropLast ∧
     (processEvent cfg s log ⟨a, Key.backspace, t⟩).1.word_start_time =
       s.word_start_time ∧
     (processEvent cfg s log ⟨a, Key.backspace, t⟩).1.word_end_time =
       s.word_end_time ∧
     (processEvent cfg s log ⟨a, Key.backspace, t⟩).1.chars_since_last_bs = 0 ∧
     (processEvent cfg s log ⟨a, Key.backspace, t⟩).1.avg_char_time_after_last_bs =
       none ∧
     (processEvent cfg s log ⟨a, Key.backspace, t⟩).2 = log) ∧
    ((logAndResetWord cfg 1 s log).1.word = [] ∧
     (logAndResetWord cfg 1 s log).1.word_start_time = none ∧
     (logAndResetWord cfg 1 s log).1.word_end_time = none ∧
     (logAndResetWord cfg 1 s log).1.chars_since_last_bs = 0 ∧
     (logAndResetWord cfg 1 s log).1.avg_char_time_after_last_bs = none) ∧
    ((appendChar s c t).word_start_time =
      if s.word_start_time.isNone then some t else s.word_start_time) := by
  refine ⟨⟨?_, ?_, ?_, ?_, ?_, ?_⟩, ⟨?_, ?_, ?_, ?_, ?_⟩, ?_⟩ <;>
    simp [processEvent, logAndResetWord, appendChar, hw]

/-- Witness for C4 at a concrete non-empty candidate. -/
theorem freqlog_C4_witness :
    ((processEvent cfgT
        { word := ['h', 'i']
          word_start_time := some 0
          word_end_time := some 1
          chars_since_last_bs := 2
          avg_char_time_after_last_bs := some 1
          active_modifier_keys := [] } [] ⟨ActionType.press, Key.backspace, 5⟩).1.word =
        (['h', 'i'] : List Char).dropLast ∧
     (processEvent cfgT
        { word := ['h', 'i']
          word_start_time := some 0
          word_end_time := some 1
          chars_since_last_bs := 2
          avg_char_time_after_last_bs := some 1
          active_modifier_keys := [] } [] ⟨ActionType.press, Key.backspace, 5⟩).1.word_start_time =
        some 0 ∧
     (processEvent cfgT
        { word := ['h', 'i']
          word_start_time := some 0
          word_end_time := some 1
          chars_since_last_bs := 2
          avg_char_time_after_last_bs := some 1
          active_modifier_keys := [] } [] ⟨ActionType.press, Key.backspace, 5⟩).1.word_end_time =
        some 1 ∧
     (processEvent cfgT
        { word := ['h', 'i']
          word_start_time := some 0
          word_end_time := some 1
          chars_since_last_bs := 2
          avg_char_time_after_last_bs := some 1
          active_modifier_keys := [] } [] ⟨ActionType.press, Key.backspace, 5⟩).1.chars_since_last_bs =
        0 ∧
     (processEvent cfgT
        { word := ['h', 'i']
          word_start_time := some 0
          word_end_time := some 1
          chars_since_last_bs := 2
          avg_char_time_after_last_bs := some 1
          active_modifier_keys := [] } [] ⟨ActionType.press, Key.backspace, 5⟩).1.avg_char_time_after_last_bs =
        none ∧
     (processEvent cfgT
        { word := ['h', 'i']
          word_start_time := some 0
          word_end_time := some 1
          chars_since_last_bs := 2
          avg_char_time_after_last_bs := some 1
          active_modifier_keys := [] } [] ⟨ActionType.press, Key.backspace, 5⟩).2 =
        []) ∧
    ((logAndResetWord cfgT 1
        { word := ['h', 'i']
          word_start_time := some 0
          word_end_time := some 1
          chars_since_last_bs := 2
          avg_char_time_after_last_bs := some 1
          active_modifier_keys := [] } []).1.word = [] ∧
     (logAndResetWord cfgT 1
        { word := ['h', 'i']
          word_start_time := some 0
          word_end_time := some 1
          chars_since_last_bs := 2
          avg_char_time_after_last_bs := some 1
          active_modifier_keys := [] } []).1.word_start_time = none ∧
     (logAndResetWord cfgT 1
        { word := ['h', 'i']
          word_start_time := some 0
          word_end_time := some 1
          chars_since_last_bs := 2
          avg_char_time_after_last_bs := some 1
          active_modifier_keys := [] } []).1.word_end_time = none ∧
     (logAndResetWord cfgT 1
        { word := ['h', 'i']
          word_start_time := some 0
          word_end_time := some 1
          chars_since_last_bs := 2
          avg_char_time_after_last_bs := some 1
          active_modifier_keys := [] } []).1.chars_since_last_bs = 0 ∧
     (logAndResetWord cfgT 1
        { word := ['h', 'i']
          word_start_time := some 0
          word_end_time := some 1
          chars_since_last_bs := 2
          avg_char_time_after_last_bs := some 1
          active_modifier_keys := [] } []).1.avg_char_time_after_last_bs = none) ∧
    ((appendChar
        { word := ['h', 'i']
          word_start_time := some 0
          word_end_time := some 1
          chars_since_last_bs := 2
          avg_char_time_after_last_bs := some 1
          active_modifier_keys := [] } 'x' 5).word_start_time =
      if (some (0 : ℚ)).isNone then some 5 else some 0) :=
  freqlog_C4_amended cfgT
    { word := ['h', 'i']
      word_start_time := some 0
      word_end_time := some 1
      chars_since_last_bs := 2
      avg_char_time_after_last_bs := some 1
      active_modifier_keys := [] } [] ActionType.press 5 'x' (by decide)

end Nexus

namespace Nexus

/-- C5 counterexample: presses at 0 and 2 give a first measured gap of 2 ms;
the stored average is the full gap `some 2`, not the half-gap
`(0*(2-1) + (2-0))/2 = 1` that the claim's formula with `avg_old = 0`
prescribes. -/
theorem freqlog_C5_counterexample :
    (processEvents cfgT initEngine []
        [⟨ActionType.press, Key.charKey 'h', 0⟩,
         ⟨ActionType.press, Key.charKey 'i', 2⟩]).1.avg_char_time_after_last_bs =
      some 2 ∧
    ¬ (processEvents cfgT initEngine []
        [⟨ActionType.press, Key.charKey 'h', 0⟩,
         ⟨ActionType.press, Key.charKey 'i', 2⟩]).1.avg_char_time_after_last_bs =
      some ((0 * (2 - 1) + (2 - 0)) / 2 : ℚ) := by
  constructor <;>
    simp [processEvents, processEvent, updateModifiers, appendChar,
      flushIfNonempty, logAndResetWord, pyTruthyDelta, flushCond, cfgT,
      initEngine]

/-- C5 amended: when the n-th character since the last backspace is accepted
(n = `chars_since_last_bs` + 1 ≥ 2, start time already set, end time known),
the rolling mean is updated as `avg_new = (avg_old*(n-1) + gap)/n` only when
the previous average is present and nonzero; when the previous average is
`None` (the first measured gap) or the zero duration, the stored average is
the **full** raw gap `timestamp - end_time`, not the formula value with
`avg_old = 0`. -/
theorem freqlog_C5_amended (s : EngineState) (c : Char) (t te d : ℚ)
    (hstart : s.word_start_time.isSome = true)
    (hend : s.word_end_time = some te)
    (hchars : 1 ≤ s.chars_since_last_bs) :
    (s.avg_char_time_after_last_bs = some d → d ≠ 0 →
      (appendChar s c t).avg_char_time_after_last_bs =
        some ((d * (s.chars_since_last_bs : ℚ) + (t - te)) /
          ((s.chars_since_last_bs : ℚ) + 1))) ∧
    (s.avg_char_time_after_last_bs = none →
      (appendChar s c t).avg_char_time_after_last_bs = some (t - te)) ∧
    (s.avg_char_time_after_last_bs = some 0 →
      (appendChar s c t).avg_char_time_after_last_bs = some (t - te)) := by
  obtain ⟨t0, ht0⟩ := Option.isSome_iff_exists.mp hstart
  have hn : 1 < s.chars_since_last_bs + 1 := by omega
  refine ⟨?_, ?_, ?_⟩
  · intro hd hd0
    simp [appendChar, ht0, hend, hd, hd0, hn, pyTruthyDelta]
  · intro hnone
    simp [appendChar, ht0, hend, hnone, hn, pyTruthyDelta]
  · intro h0
    simp [appendChar, ht0, hend, h0, hn, pyTruthyDelta]

/-- Witness for C5: third character at t = 6 after end time 3 with previous
average 2 over 2 characters: the new average is `(2*2 + 3)/3`. -/
theorem freqlog_C5_witness :
    (appendChar
        { word := ['h', 'i']
          word_start_time := some 0
          word_end_time := some 3
          chars_since_last_bs := 2
          avg_char_time_after_last_bs := some 2
          active_modifier_keys := [] } 'x' 6).avg_char_time_after_last_bs =
      some ((2 * ((2 : Nat) : ℚ) + (6 - 3)) / (((2 : Nat) : ℚ) + 1)) :=
  (freqlog_C5_amended
    { word := ['h', 'i']
      word_start_time := some 0
      word_end_time := some 3
      chars_since_last_bs := 2
      avg_char_time_after_last_bs := some 2
      active_modifier_keys := [] } 'x' 6 3 2 rfl rfl (by decide)).1 rfl
    (by norm_num)

end Nexus

namespace Nexus

/-- C6: a flushed candidate is persisted only if its length strictly exceeds
the default minimum length 1, and a single-character candidate followed by a
receive timeout is never logged while its state is still fully reset. -/
theorem freqlog_C6 (cfg : Config) (s : EngineState) (log : List LogEntry)
    (b st0 : Bool) (m : Nat) (hlen : s.word.length = 1) :
    (∀ s2 : EngineState, (logAndResetWord cfg 1 s2 log).2 ≠ log →
      1 < s2.word.length) ∧
    (timeoutStep cfg b ⟨s, log, m, st0⟩).log = log ∧
    (timeoutStep cfg b ⟨s, log, m, st0⟩).engine.word = [] ∧
    (timeoutStep cfg b ⟨s, log, m, st0⟩).engine.word_start_time = none ∧
    (timeoutStep cfg b ⟨s, log, m, st0⟩).engine.word_end_time = none ∧
    (timeoutStep cfg b ⟨s, log, m, st0⟩).engine.chars_since_last_bs = 0 ∧
    (timeoutStep cfg b ⟨s, log, m, st0⟩).engine.avg_char_time_after_last_bs =
      none := by
  have hne : s.word ≠ [] := by
    intro h
    rw [h] at hlen
    simp at hlen
  have hshort : (logAndResetWord cfg 1 s log).2 = log :=
    logAndResetWord_snd_short cfg 1 s log (by omega)
  have hfst := logAndResetWord_fst cfg 1 s log hne
  refine ⟨?_, ?_⟩
  · intro s2 hlog
    by_contra hlt
    exact hlog (logAndResetWord_snd_short cfg 1 s2 log (by omega))
  · refine ⟨?_, ?_, ?_, ?_, ?_, ?_⟩ <;>
      cases b <;> simp [timeoutStep, flushIfNonempty, hne, hshort, hfst]

/-- Witness for C6 at a single-character candidate under `cfgT`. -/
theorem freqlog_C6_witness :
    (∀ s2 : EngineState, (logAndResetWord cfgT 1 s2 []).2 ≠ [] →
      1 < s2.word.length) ∧
    (timeoutStep cfgT true
      ⟨{ word := ['h']
         word_start_time := some 0
         word_end_time := some 0
         chars_since_last_bs := 1
         avg_char_time_after_last_bs := none
         active_modifier_keys := [] }, [], 0, false⟩).log = [] ∧
    (timeoutStep cfgT true
      ⟨{ word := ['h']
         word_start_time := some 0
         word_end_time := some 0
         chars_since_last_bs := 1
         avg_char_time_after_last_bs := none
         active_modifier_keys := [] }, [], 0, false⟩).engine.word = [] ∧
    (timeoutStep cfgT true
      ⟨{ word := ['h']
         word_start_time := some 0
         word_end_time := some 0
         chars_since_last_bs := 1
         avg_char_time_after_last_bs := none
         active_modifier_keys := [] }, [], 0, false⟩).engine.word_start_time =
      none ∧
    (timeoutStep cfgT true
      ⟨{ word := ['h']
         word_start_time := some 0
         word_end_time := some 0
         chars_since_last_bs := 1
         avg_char_time_after_last_bs := none
         active_modifier_keys := [] }, [], 0, false⟩).engine.word_end_time =
      none ∧
    (timeoutStep cfgT true
      ⟨{ word := ['h']
         word_start_time := some 0
         word_end_time := some 0
         chars_since_last_bs := 1
         avg_char_time_after_last_bs := none
         active_modifier_keys := [] }, [], 0, false⟩).engine.chars_since_last_bs =
      0 ∧
    (timeoutStep cfgT true
      ⟨{ word := ['h']
         word_start_time := some 0
         word_end_time := some 0
         chars_since_last_bs := 1
         avg_char_time_after_last_bs := none
         active_modifier_keys := [] }, [], 0, false⟩).engine.avg_char_time_after_last_bs =
      none :=
  freqlog_C6 cfgT
    { word := ['h']
      word_start_time := some 0
      word_end_time := some 0
      chars_since_last_bs := 1
      avg_char_time_after_last_bs := none
      active_modifier_keys := [] } [] true false 0 (by decide)

/-- C7: pressing an allowed character key while at least one modifier is
active leaves every part of the engine state other than the modifier set
unchanged, and logs nothing. -/
theorem freqlog_C7 (cfg : Config) (s : EngineState) (log : List LogEntry)
    (c : Char) (t : ℚ) (hact : s.active_modifier_keys ≠ [])
    (hc : c ∈ cfg.allowed_keys_in_chord) :
    (processEvent cfg s log ⟨ActionType.press, Key.charKey c, t⟩).1.word =
      s.word ∧
    (processEvent cfg s log ⟨ActionType.press, Key.charKey c, t⟩).1.word_start_time =
      s.word_start_time ∧
    (processEvent cfg s log ⟨ActionType.press, Key.charKey c, t⟩).1.word_end_time =
      s.word_end_time ∧
    (processEvent cfg s log ⟨ActionType.press, Key.charKey c, t⟩).1.chars_since_last_bs =
      s.chars_since_last_bs ∧
    (processEvent cfg s log ⟨ActionType.press, Key.charKey c, t⟩).1.avg_char_time_after_last_bs =
      s.avg_char_time_after_last_bs ∧
    (processEvent cfg s log ⟨ActionType.press, Key.charKey c, t⟩).2 = log := by
  have hne : updateModifiers cfg s.active_modifier_keys ActionType.press
      (Key.charKey c) ≠ [] := by
    by_cases hmem : Key.charKey c ∈ cfg.modifier_keys
    · simp [updateModifiers, hmem, insert_ne_nil]
    · simp [updateModifiers, hmem, hact]
  refine ⟨?_, ?_, ?_, ?_, ?_, ?_⟩ <;> simp [processEvent, hc, hne]

/-- Witness for C7: pressing allowed `i` with shift active changes nothing
but the modifier set. -/
theorem freqlog_C7_witness :
    (processEvent cfgT
      { word := ['h']
        word_start_time := some 0
        word_end_time := some 0
        chars_since_last_bs := 1
        avg_char_time_after_last_bs := none
        active_modifier_keys := [Key.special "shift"] } []
      ⟨ActionType.press, Key.charKey 'i', 3⟩).1.word = ['h'] ∧
    (processEvent cfgT
      { word := ['h']
        word_start_time := some 0
        word_end_time := some 0
        chars_since_last_bs := 1
        avg_char_time_after_last_bs := none
        active_modifier_keys := [Key.special "shift"] } []
      ⟨ActionType.press, Key.charKey 'i', 3⟩).1.word_start_time = some 0 ∧
    (processEvent cfgT
      { word := ['h']
        word_start_time := some 0
        word_end_time := some 0
        chars_since_last_bs := 1
        avg_char_time_after_last_bs := none
        active_modifier_keys := [Key.special "shift"] } []
      ⟨ActionType.press, Key.charKey 'i', 3⟩).1.word_end_time = some 0 ∧
    (processEvent cfgT
      { word := ['h']
        word_start_time := some 0
        word_end_time := some 0
        chars_since_last_bs := 1
        avg_char_time_after_last_bs := none
        active_modifier_keys := [Key.special "shift"] } []
      ⟨ActionType.press, Key.charKey 'i', 3⟩).1.chars_since_last_bs = 1 ∧
    (processEvent cfgT
      { word := ['h']
        word_start_time := some 0
        word_end_time := some 0
        chars_since_last_bs := 1
        avg_char_time_after_last_bs := none
        active_modifier_keys := [Key.special "shift"] } []
      ⟨ActionType.press, Key.charKey 'i', 3⟩).1.avg_char_time_after_last_bs =
      none ∧
    (processEvent cfgT
      { word := ['h']
        word_start_time := some 0
        word_end_time := some 0
        chars_since_last_bs := 1
        avg_char_time_after_last_bs := none
        active_modifier_keys := [Key.special "shift"] } []
      ⟨ActionType.press, Key.charKey 'i', 3⟩).2 = [] :=
  freqlog_C7 cfgT
    { word := ['h']
      word_start_time := some 0
      word_end_time := some 0
      chars_since_last_bs := 1
      avg_char_time_after_last_bs := none
      active_modifier_keys := [Key.special "shift"] } [] 'i' 3 (by decide)
    (by decide)

end Nexus

namespace Nexus

/-- C8: on a receive timeout the engine flushes exactly when the candidate
is non-empty; with the stop flag set (`is_logging = false`) it closes the
backend exactly once and exits the loop, and with the flag unset it
continues without ever closing the backend. -/
theorem freqlog_C8 (cfg : Config) (b : Bool) (st : SysState) :
    (st.engine.word = [] →
      (timeoutStep cfg b st).engine = st.engine ∧
      (timeoutStep cfg b st).log = st.log) ∧
    (st.engine.word ≠ [] →
      (timeoutStep cfg b st).engine = (logAndResetWord cfg 1 st.engine st.log).1 ∧
      (timeoutStep cfg b st).log = (logAndResetWord cfg 1 st.engine st.log).2) ∧
    (b = false →
      (timeoutStep cfg b st).closedCount = st.closedCount + 1 ∧
      (timeoutStep cfg b st).stopped = true) ∧
    (b = true →
      (timeoutStep cfg b st).closedCount = st.closedCount ∧
      (timeoutStep cfg b st).stopped = st.stopped) := by
  refine ⟨?_, ?_, ?_, ?_⟩
  · intro h
    cases b <;> simp [timeoutStep, flushIfNonempty, h]
  · intro h
    cases b <;> simp [timeoutStep, flushIfNonempty, h]
  · intro h
    subst h
    simp [timeoutStep]
  · intro h
    subst h
    simp [timeoutStep]

/-- Witness for C8: a stop tick on a non-empty single-character candidate
flushes it and closes the backend exactly once. -/
theorem freqlog_C8_witness :
    ((timeoutStep cfgT false
        ⟨{ word := ['h']
           word_start_time := some 0
           word_end_time := some 0
           chars_since_last_bs := 1
           avg_char_time_after_last_bs := none
           active_modifier_keys := [] }, [], 0, false⟩).engine =
      (logAndResetWord cfgT 1
        { word := ['h']
          word_start_time := some 0
          word_end_time := some 0
          chars_since_last_bs := 1
          avg_char_time_after_last_bs := none
          active_modifier_keys := [] } []).1 ∧
     (timeoutStep cfgT false
        ⟨{ word := ['h']
           word_start_time := some 0
           word_end_time := some 0
           chars_since_last_bs := 1
           avg_char_time_after_last_bs := none
           active_modifier_keys := [] }, [], 0, false⟩).log =
      (logAndResetWord cfgT 1
        { word := ['h']
          word_start_time := some 0
          word_end_time := some 0
          chars_since_last_bs := 1
          avg_char_time_after_last_bs := none
          active_modifier_keys := [] } []).2) ∧
    ((timeoutStep cfgT false
        ⟨{ word := ['h']
           word_start_time := some 0
           word_end_time := some 0
           chars_since_last_bs := 1
           avg_char_time_after_last_bs := none
           active_modifier_keys := [] }, [], 0, false⟩).closedCount = 0 + 1 ∧
     (timeoutStep cfgT false
        ⟨{ word := ['h']
           word_start_time := some 0
           word_end_time := some 0
           chars_since_last_bs := 1
           avg_char_time_after_last_bs := none
           active_modifier_keys := [] }, [], 0, false⟩).stopped = true) :=
  ⟨(freqlog_C8 cfgT false
      ⟨{ word := ['h']
         word_start_time := some 0
         word_end_time := some 0
         chars_since_last_bs := 1
         avg_char_time_after_last_bs := none
         active_modifier_keys := [] }, [], 0, false⟩).2.1 (by decide),
   (freqlog_C8 cfgT false
      ⟨{ word := ['h']
         word_start_time := some 0
         word_end_time := some 0
         chars_since_last_bs := 1
         avg_char_time_after_last_bs := none
         active_modifier_keys := [] }, [], 0, false⟩).2.2.1 rfl⟩

/-- C9 counterexample: `backspace` is not a configured modifier key, yet a
`RELEASE` event for it delivered to the engine on a non-empty candidate
erases a character — the engine state is **not** unchanged (the loop tests
only the key, not the action, for backspace handling). -/
theorem freqlog_C9_counterexample :
    Key.backspace ∉ cfgT.modifier_keys ∧
    (processEvent cfgT
      { word := ['h', 'i']
        word_start_time := some 0
        word_end_time := some 1
        chars_since_last_bs := 2
        avg_char_time_after_last_bs := some 1
        active_modifier_keys := [] } []
      ⟨ActionType.release, Key.backspace, 5⟩).1.word = ['h'] ∧
    ¬ (processEvent cfgT
      { word := ['h', 'i']
        word_start_time := some 0
        word_end_time := some 1
        chars_since_last_bs := 2
        avg_char_time_after_last_bs := some 1
        active_modifier_keys := [] } []
      ⟨ActionType.release, Key.backspace, 5⟩).1.word = ['h', 'i'] := by
    refine ⟨by decide, ?_, ?_⟩ <;>
      simp [processEvent, updateModifiers, cfgT]

/-- C9 amended: the producer callback `_on_release` enqueues release events
only for configured modifier keys, so a Release of a non-modifier key never
reaches the engine; and the engine itself distinguishes Press from Release
only for modifier tracking — a delivered Release of a non-character,
non-backspace key removes it from the active-modifier set and then, like any
non-member key, flushes a non-empty candidate. -/
theorem freqlog_C9_amended (cfg : Config) (s : EngineState)
    (log : List LogEntry) (k k2 : Key) (t t2 : ℚ)
    (h1 : k ∉ cfg.modifier_keys) (h2 : keyChar k2 = none)
    (h3 : k2 ≠ Key.backspace) :
    onRelease cfg.modifier_keys k t = [] ∧
    processEvent cfg s log ⟨ActionType.release, k2, t2⟩ =
      flushIfNonempty cfg
        { s with active_modifier_keys := s.active_modifier_keys.erase k2 }
        log := by
  constructor
  · simp [onRelease, h1]
  · cases k2 with
    | charKey c => simp [keyChar] at h2
    | backspace => exact absurd rfl h3
    | special name => simp [processEvent, updateModifiers]
    | mouseButton id => simp [processEvent, updateModifiers]

/-- Witness for C9: a mouse-button release is never enqueued, and a
delivered release of the (non-modifier) enter key flushes the candidate. -/
theorem freqlog_C9_witness :
    onRelease cfgT.modifier_keys (Key.mouseButton 0) 1 = [] ∧
    processEvent cfgT
      { word := ['h', 'i']
        word_start_time := some 0
        word_end_time := some 1
        chars_since_last_bs := 2
        avg_char_time_after_last_bs := some 1
        active_modifier_keys := [] } []
      ⟨ActionType.release, Key.special "enter", 2⟩ =
      flushIfNonempty cfgT
        { word := ['h', 'i']
          word_start_time := some 0
          word_end_time := some 1
          chars_since_last_bs := 2
          avg_char_time_after_last_bs := some 1
          active_modifier_keys := ([] : List Key).erase (Key.special "enter") }
        [] :=
  freqlog_C9_amended cfgT
    { word := ['h', 'i']
      word_start_time := some 0
      word_end_time := some 1
      chars_since_last_bs := 2
      avg_char_time_after_last_bs := some 1
      active_modifier_keys := [] } [] (Key.mouseButton 0)
    (Key.special "enter") 1 2 (by decide) rfl (by decide)

/-- C10: starting from the empty active-modifier set, every event-processing
step preserves the invariant that the active-modifier set only contains
configured modifier keys. -/
theorem freqlog_C10 (cfg : Config) (s : EngineState) (log : List LogEntry)
    (e : RawEvent)
    (hsub : ∀ k ∈ s.active_modifier_keys, k ∈ cfg.modifier_keys) :
    (∀ k ∈ initEngine.active_modifier_keys, k ∈ cfg.modifier_keys) ∧
    ∀ k ∈ (processEvent cfg s log e).1.active_modifier_keys,
      k ∈ cfg.modifier_keys := by
  constructor
  · intro k hk
    simp [initEngine] at hk
  · intro k hk
    rw [processEvent_active] at hk
    unfold updateModifiers at hk
    split at hk
    · rename_i h
      rcases List.mem_insert_iff.mp hk with rfl | hmem
      · exact h.2
      · exact hsub k hmem
    · split at hk
      · exact hsub k (List.mem_of_mem_erase hk)
      · exact hsub k hk

/-- Witness for C10: after pressing shift with shift already active, shift
is still a configured modifier key of every active entry. -/
theorem freqlog_C10_witness :
    Key.special "shift" ∈ cfgT.modifier_keys :=
  (freqlog_C10 cfgT
    { word := []
      word_start_time := none
      word_end_time := none
      chars_since_last_bs := 0
      avg_char_time_after_last_bs := none
      active_modifier_keys := [Key.special "shift"] } []
    ⟨ActionType.press, Key.special "shift", 0⟩ (by decide)).2
    (Key.special "shift") (by decide)

end Nexus
